import Mathlib

/-
Shallow embedding of the greyltc/plotter repository
(src/plotter/it_plotter.py and src/plotter/iv_plotter.py).

Modelling conventions:
- Python/numpy floats are modelled as exact rationals (ℚ).
- Python exceptions (KeyError, IndexError, ZeroDivisionError, numpy
  ValueError) are modelled with `Except PyErr`; a handler that raises is a
  handler that returns `Except.error`, leaving the caller's state unchanged.
- numpy 2-d arrays are modelled as `Mat` (an explicit column count plus a
  list of rows); inputs are assumed rectangular, as numpy requires.
- The two `collections.deque(maxlen=1)` caches (`graph4_latest` /
  `graph2_latest`) hold a reference to a numpy array.  Because
  `iv_plotter.on_message` writes into that array in place
  (`data[:, 2:] = ...`), array identity is observable, so arrays live in an
  explicit heap (`List Mat`) and the published snapshot holds an index into
  it.  A fresh array (e.g. the result of `np.append`, which always copies)
  is modelled by appending a new heap cell.
- MQTT side effects are modelled as a trace of `Event`s emitted in program
  order: `Event.publish topic` for `_publish(topic, ...)` (the thread spawn
  that initiates republication) and `Event.cachePush` for
  `graphN_latest.append(...)`.
-/

deriving instance DecidableEq for Except

/-- Python exception kinds raised by the modelled code paths. -/
inductive PyErr where
  | keyError
  | indexError
  | zeroDivisionError
  | valueError
deriving DecidableEq

/-- Observable side effects of one message handling, in program order. -/
inductive Event where
  | publish (topic : String)
  | cachePush
deriving DecidableEq

/-- Python dict lookup `payload[k]`: raises KeyError when the key is absent. -/
def getKey {α : Type} (o : Option α) : Except PyErr α :=
  match o with
  | some v => Except.ok v
  | none => Except.error PyErr.keyError

/-- Python list indexing `l[i]` (non-negative index): IndexError out of range. -/
def listGet (l : List ℚ) (i : Nat) : Except PyErr ℚ :=
  match l.get? i with
  | some v => Except.ok v
  | none => Except.error PyErr.indexError

/-- A numpy 2-d array: a shape (column count) plus its rows. -/
structure Mat where
  ncols : Nat
  rows : List (List ℚ)
deriving DecidableEq

/-- Rectangularity: every row has the declared column count. -/
abbrev Mat.WF (m : Mat) : Prop := ∀ r ∈ m.rows, r.length = m.ncols

/-- Whether an `Except` value is observably successful. -/
def exceptOk {α : Type} (x : Except PyErr α) : Bool :=
  match x with
  | Except.ok _ => true
  | Except.error _ => false

/-- The process-wide `config` global (replaced wholesale by `read_config`). -/
abbrev Config := List (String × String)

/-! ## it_plotter.py -/

/-- An inbound payload for `data/raw/it_measurement`; fields are the dict
keys read by the code (`data`, `pixel.area`, `clear`, `idn`), `Option`
because a key may be absent from the pickled dict. -/
structure ITPayload where
  data : Option (List ℚ)
  area : Option ℚ
  clear : Bool
  idn : String
deriving DecidableEq

/-- it_plotter.process_ivt: reads `payload["data"]` (a flat row of scalars)
and `payload["pixel"]["area"]`, computes `j = data[1] * 1000 / area` and
`p = data[0] * j`, appends both to the row, publishes the augmented payload
on `data/processed/it_measurement`, and returns the augmented row.
The scalar float division raises ZeroDivisionError when `area == 0`. -/
def process_ivt (payload : ITPayload) : Except PyErr (List ℚ × Event) :=
  match getKey payload.data with
  | Except.error e => Except.error e
  | Except.ok data =>
    match getKey payload.area with
    | Except.error e => Except.error e
    | Except.ok area =>
      match listGet data 1 with
      | Except.error e => Except.error e
      | Except.ok d1 =>
        if area = 0 then Except.error PyErr.zeroDivisionError
        else
          match listGet data 0 with
          | Except.error e => Except.error e
          | Except.ok d0 =>
            Except.ok (data ++ [d1 * 1000 / area, d0 * (d1 * 1000 / area)],
              Event.publish "data/processed/it_measurement")

/-- Models `np.append(m, np.array([row]), axis=0)`: returns a fresh array; the row
must match the column count of `m`. -/
def matAppendRow (m : Mat) (row : List ℚ) : Except PyErr Mat :=
  if row.length = m.ncols then Except.ok ⟨m.ncols, m.rows ++ [row]⟩
  else Except.error PyErr.valueError

/-- Models `t_scaled = data[:, -1] - data[0, -1]; data[:, 0] = t_scaled`: rewrite
column 0 of every row to that row's last column minus row 0's last column
(in the it pipeline the last column, index `ncols - 1 = 2`, is the raw
time). -/
def renormalize (m : Mat) : Mat :=
  let t0 := (m.rows.headD []).getD (m.ncols - 1) 0
  ⟨m.ncols, m.rows.map (fun r => r.set 0 (r.getD (m.ncols - 1) 0 - t0))⟩

/-- The mutable globals of it_plotter.py: `graph4_latest` (as a message plus
a heap reference to the published array), the array heap, `paused`, and
`config`. -/
structure ITState where
  heap : List Mat
  snapMsg : ITPayload
  snapRef : Nat
  paused : Bool
  config : Config
deriving DecidableEq

/-- The published series: the array `graph4_latest[0]["data"]` refers to. -/
def ITState.series (s : ITState) : Mat := s.heap.getD s.snapRef ⟨3, []⟩

/-- A decoded inbound message, tagged by the topic it arrived on:
`data/raw/it_measurement`, `measurement/run`, or `plotter/pause`. -/
inductive ITMsg where
  | data (payload : ITPayload)
  | run (cfg : Config)
  | pause (b : Bool)
deriving DecidableEq

/-- it_plotter.on_message: routes by topic.  On the data topic: on
`clear`, republish the snapshot with a fresh empty `(0, 3)` array; otherwise
run `process_ivt` (which publishes), read `t = pdata[2]` and `j = pdata[4]`,
append the row `[0, j, t]` to a fresh copy of the published array,
renormalize column 0, and push the new snapshot.  `measurement/run`
replaces `config`; `plotter/pause` replaces `paused`. -/
def on_message_it (s : ITState) (m : ITMsg) : Except PyErr (ITState × List Event) :=
  match m with
  | ITMsg.data payload =>
    if payload.clear then
      Except.ok (⟨s.heap ++ [⟨3, []⟩], payload, s.heap.length, s.paused, s.config⟩,
        [Event.cachePush])
    else
      match process_ivt payload with
      | Except.error e => Except.error e
      | Except.ok (pdata, ev) =>
        match listGet pdata 2 with
        | Except.error e => Except.error e
        | Except.ok t =>
          match listGet pdata 4 with
          | Except.error e => Except.error e
          | Except.ok j =>
            match matAppendRow (s.heap.getD s.snapRef ⟨3, []⟩) [0, j, t] with
            | Except.error e => Except.error e
            | Except.ok appended =>
              Except.ok (⟨s.heap ++ [renormalize appended], payload, s.heap.length,
                s.paused, s.config⟩, [ev, Event.cachePush])
  | ITMsg.run cfg => Except.ok (⟨s.heap, s.snapMsg, s.snapRef, s.paused, cfg⟩, [])
  | ITMsg.pause b => Except.ok (⟨s.heap, s.snapMsg, s.snapRef, b, s.config⟩, [])

/-- The initial snapshot message `{"clear": True, "idn": "-"}`. -/
def initITPayload : ITPayload := ⟨none, none, true, "-"⟩

/-- Initial it_plotter state: `graph4_latest` holds the empty `(0, 3)`
array, `paused` is `False`, `config` is the empty dict. -/
def initIT : ITState := ⟨[⟨3, []⟩], initITPayload, 0, false, []⟩

/-! ## iv_plotter.py -/

/-- An inbound payload for `data/raw/iv_measurement`; `data` is a list of
rows (one sweep). -/
structure IVPayload where
  data : Option (List (List ℚ))
  area : Option ℚ
  clear : Bool
  idn : String
deriving DecidableEq

/-- Models `np.array(rows)` for a rectangular list of rows; an empty list yields a
zero-column shape (so any column indexing of it raises, as for numpy's
shape-`(0,)` array). -/
def npArray (rows : List (List ℚ)) : Mat := ⟨(rows.headD []).length, rows⟩

/-- Models `np.append(m, v.reshape(len(v), 1), axis=1)` where `v` has one entry per
row of `m`: adjoin `v` as a trailing column. -/
def appendColumn (m : Mat) (v : List ℚ) : Mat :=
  ⟨m.ncols + 1, (m.rows.zip v).map (fun rc => rc.1 ++ [rc.2])⟩

/-- iv_plotter.process_iv: reads the sweep and the area, computes the column
`j = data[:, 1] * 1000 / area` and `p = data[:, 0] * j` in one vectorized
pass, appends them as two trailing columns, publishes the augmented payload
on `data/processed/iv_measurement`, and returns the augmented matrix.
Column indexing raises IndexError when the sweep has fewer than 2 columns;
numpy float division by zero does not raise (the zero-area case is outside
this rational-number model and unused by the theorems below). -/
def process_iv (payload : IVPayload) : Except PyErr (Mat × Event) :=
  match getKey payload.data with
  | Except.error e => Except.error e
  | Except.ok rawRows =>
    match getKey payload.area with
    | Except.error e => Except.error e
    | Except.ok area =>
      let data := npArray rawRows
      if data.ncols < 2 then Except.error PyErr.indexError
      else
        let j := data.rows.map (fun r => r.getD 1 0 * 1000 / area)
        let p := data.rows.map (fun r => r.getD 0 0 * (r.getD 1 0 * 1000 / area))
        Except.ok (appendColumn (appendColumn data j) p,
          Event.publish "data/processed/iv_measurement")

/-- Fancy indexing `m[:, idxs]`: IndexError when an index is out of range. -/
def selectCols (m : Mat) (idxs : List Nat) : Except PyErr Mat :=
  if idxs.all (fun i => decide (i < m.ncols)) then
    Except.ok ⟨idxs.length, m.rows.map (fun r => idxs.map (fun i => r.getD i 0))⟩
  else Except.error PyErr.indexError

/-- Models `np.zeros(m.shape)`. -/
def zerosLike (m : Mat) : Mat :=
  ⟨m.ncols, List.replicate m.rows.length (List.replicate m.ncols 0)⟩

/-- Models `np.append(a, b, axis=1)`: column-wise concatenation; the row counts
must agree. -/
def matHAppend (a b : Mat) : Except PyErr Mat :=
  if a.rows.length = b.rows.length then
    Except.ok ⟨a.ncols + b.ncols, (a.rows.zip b.rows).map (fun rc => rc.1 ++ rc.2)⟩
  else Except.error PyErr.valueError

/-- Broadcast the rows of `b` against a destination with `n` rows: a
single-row `b` is replicated. -/
def broadcastRows (n : Nat) (b : Mat) : List (List ℚ) :=
  if b.rows.length = n then b.rows else List.replicate n (b.rows.headD [])

/-- Broadcast a source row against a destination region `w` columns wide: a
single-column source is replicated. -/
def expandRow (w : Nat) (bcols : Nat) (r : List ℚ) : List ℚ :=
  if bcols = 1 then List.replicate w (r.getD 0 0) else r

/-- In-place slice assignment `m[:, k:] = b` with numpy broadcasting: the
source must match the destination region in each axis or be 1 there,
otherwise ValueError.  Returns the updated contents of the SAME array. -/
def setTailCols (m : Mat) (k : Nat) (b : Mat) : Except PyErr Mat :=
  let w := m.ncols - k
  if (b.ncols = w ∨ b.ncols = 1) ∧ (b.rows.length = m.rows.length ∨ b.rows.length = 1) then
    Except.ok ⟨m.ncols,
      (m.rows.zip (broadcastRows m.rows.length b)).map
        (fun rc => rc.1.take k ++ expandRow w b.ncols rc.2)⟩
  else Except.error PyErr.valueError

/-- The mutable globals of iv_plotter.py, as for `ITState`. -/
structure IVState where
  heap : List Mat
  snapMsg : IVPayload
  snapRef : Nat
  paused : Bool
  config : Config
deriving DecidableEq

/-- The published series: the array `graph2_latest[0]["data"]` refers to. -/
def IVState.series (s : IVState) : Mat := s.heap.getD s.snapRef ⟨4, []⟩

/-- A decoded inbound message for iv_plotter, tagged by topic. -/
inductive IVMsg where
  | data (payload : IVPayload)
  | run (cfg : Config)
  | pause (b : Bool)
deriving DecidableEq

/-- iv_plotter.on_message: on the data topic, on `clear` push a fresh empty
`(0, 4)` array; otherwise run `process_iv` (which publishes), and either
seed a fresh array `[bias, j | zeros]` when the published series is empty,
or write `data[:, 2:] = pdata[:, [0, 4]]` IN PLACE into the published
array (same heap cell) and push that same reference again. -/
def on_message_iv (s : IVState) (m : IVMsg) : Except PyErr (IVState × List Event) :=
  match m with
  | IVMsg.data payload =>
    if payload.clear then
      Except.ok (⟨s.heap ++ [⟨4, []⟩], payload, s.heap.length, s.paused, s.config⟩,
        [Event.cachePush])
    else
      match process_iv payload with
      | Except.error e => Except.error e
      | Except.ok (pdata, ev) =>
        let stored := s.heap.getD s.snapRef ⟨4, []⟩
        if stored.rows.length = 0 then
          match selectCols pdata [0, 4] with
          | Except.error e => Except.error e
          | Except.ok data0 =>
            match matHAppend data0 (zerosLike data0) with
            | Except.error e => Except.error e
            | Except.ok newMat =>
              Except.ok (⟨s.heap ++ [newMat], payload, s.heap.length, s.paused,
                s.config⟩, [ev, Event.cachePush])
        else
          match selectCols pdata [0, 4] with
          | Except.error e => Except.error e
          | Except.ok sub =>
            match setTailCols stored 2 sub with
            | Except.error e => Except.error e
            | Except.ok updated =>
              Except.ok (⟨s.heap.set s.snapRef updated, payload, s.snapRef,
                s.paused, s.config⟩, [ev, Event.cachePush])
  | IVMsg.run cfg => Except.ok (⟨s.heap, s.snapMsg, s.snapRef, s.paused, cfg⟩, [])
  | IVMsg.pause b => Except.ok (⟨s.heap, s.snapMsg, s.snapRef, b, s.config⟩, [])

/-- The initial snapshot message `{"clear": True, "idn": "-"}`. -/
def initIVPayload : IVPayload := ⟨none, none, true, "-"⟩

/-- Initial iv_plotter state: `graph2_latest` holds the empty `(0, 4)`
array, `paused` is `False`, `config` is the empty dict. -/
def initIV : IVState := ⟨[⟨4, []⟩], initIVPayload, 0, false, []⟩

/-! ## Concrete states and payloads used by the witnesses -/

/-- Payload of one it measurement point `[V, I, t, status]` at raw time t
(`V = 0.6`, `I = 0.005`, area `0.1`, so `j = 50`). -/
def c2p (t : ℚ) : ITPayload := ⟨some [6/10, 5/1000, t, 0], some (1/10), false, "d"⟩

/-- State after folding the raw time 100 into the fresh it pipeline. -/
def c2s1 : ITState := ⟨[⟨3, []⟩, ⟨3, [[0, 50, 100]]⟩], c2p 100, 1, false, []⟩

/-- State after also folding raw time 100.5. -/
def c2s2 : ITState :=
  ⟨[⟨3, []⟩, ⟨3, [[0, 50, 100]]⟩, ⟨3, [[0, 50, 100], [1/2, 50, 201/2]]⟩],
    c2p (201/2), 2, false, []⟩

/-- State after also folding raw time 101.2. -/
def c2s3 : ITState :=
  ⟨[⟨3, []⟩, ⟨3, [[0, 50, 100]]⟩, ⟨3, [[0, 50, 100], [1/2, 50, 201/2]]⟩,
      ⟨3, [[0, 50, 100], [1/2, 50, 201/2], [6/5, 50, 506/5]]⟩],
    c2p (506/5), 3, false, []⟩

/-- The ingestion-relevant part of an it handler result: everything except
the pause flag. -/
def coreIT (x : Except PyErr (ITState × List Event)) :
    Except PyErr ((List Mat × ITPayload × Nat × Config) × List Event) :=
  x.map (fun se => ((se.1.heap, se.1.snapMsg, se.1.snapRef, se.1.config), se.2))

/-- The ingestion-relevant part of an iv handler result. -/
def coreIV (x : Except PyErr (IVState × List Event)) :
    Except PyErr ((List Mat × IVPayload × Nat × Config) × List Event) :=
  x.map (fun se => ((se.1.heap, se.1.snapMsg, se.1.snapRef, se.1.config), se.2))

/-- The prior published iv state for the aliasing counterexample: one
published sweep `[1, 50, 0, 0]`. -/
def c4s : IVState := ⟨[⟨4, [[1, 50, 0, 0]]⟩], initIVPayload, 0, false, []⟩

/-- A further sweep: bias 2, current 0.004, area 0.1, so j = 40. -/
def c4p : IVPayload := ⟨some [[2, 1/250, 9, 0]], some (1/10), false, "x"⟩

/-- Sweep A: one row `[bias 1, current 0.01, t, status]`, area 1, j = 10. -/
def c3pA : IVPayload := ⟨some [[1, 1/100, 0, 0]], some 1, false, "d"⟩

/-- Sweep B: one row `[bias 1, current 0.02, t, status]`, area 1, j = 20. -/
def c3pB : IVPayload := ⟨some [[1, 2/100, 0, 0]], some 1, false, "d"⟩

/-- State after seeding the fresh iv pipeline with sweep A. -/
def c3sA : IVState := ⟨[⟨4, []⟩, ⟨4, [[1, 10, 0, 0]]⟩], c3pA, 1, false, []⟩

/-- State after folding sweep B into `c3sA`: columns 0-1 still sweep A's,
columns 2-3 overwritten in place with sweep B's `(bias, j)`. -/
def c3sB : IVState := ⟨[⟨4, []⟩, ⟨4, [[1, 10, 1, 20]]⟩], c3pB, 1, false, []⟩


/-! ## Helper lemmas -/

theorem getKey_some {α : Type} (v : α) : getKey (some v) = Except.ok v := rfl

theorem getKey_none {α : Type} :
    (getKey (none : Option α)) = Except.error PyErr.keyError := rfl

theorem listGet_ok {l : List ℚ} {i : Nat} (h : i < l.length) :
    listGet l i = Except.ok (l.getD i 0) := by
  rw [List.getD_eq_getD_get?]
  unfold listGet
  cases hg : l.get? i with
  | none => exact absurd (List.get?_eq_none.mp hg) (Nat.not_le.mpr h)
  | some v => simp [hg]

theorem listGet_err {l : List ℚ} {i : Nat} (h : l.length ≤ i) :
    listGet l i = Except.error PyErr.indexError := by
  unfold listGet
  rw [List.get?_eq_none.mpr h]

theorem zip_self_map {α β γ : Type} (l : List α) (f : α → β) (g : α → β → γ) :
    (l.zip (l.map f)).map (fun rc => g rc.1 rc.2) = l.map (fun r => g r (f r)) := by
  induction l with
  | nil => rfl
  | cons x t ih => simp [ih]

theorem zip_map_map {α β γ δ : Type} (l : List α) (f : α → β) (g : α → γ)
    (h : β → γ → δ) :
    ((l.map f).zip (l.map g)).map (fun rc => h rc.1 rc.2) =
      l.map (fun a => h (f a) (g a)) := by
  induction l with
  | nil => rfl
  | cons x t ih => simp [ih]

theorem appendColumn_map (c : Nat) (l : List (List ℚ)) (f : List ℚ → ℚ) :
    appendColumn ⟨c, l⟩ (l.map f) = ⟨c + 1, l.map (fun r => r ++ [f r])⟩ := by
  unfold appendColumn
  exact congrArg (Mat.mk (c + 1)) (zip_self_map l f (fun r v => r ++ [v]))

theorem appendColumn_map2 (c : Nat) (l : List (List ℚ)) (u : List ℚ → List ℚ)
    (f : List ℚ → ℚ) :
    appendColumn ⟨c, l.map u⟩ (l.map f) = ⟨c + 1, l.map (fun r => u r ++ [f r])⟩ := by
  unfold appendColumn
  exact congrArg (Mat.mk (c + 1)) (zip_map_map l u f (fun r v => r ++ [v]))

/-- Successful run of `process_ivt` on a well-formed payload: the augmented
row is the raw row with `j = data[1] * 1000 / area` and `p = data[0] * j`
appended, and the augmented payload is published on the processed topic. -/
theorem process_ivt_ok (d : List ℚ) (a : ℚ) (cl : Bool) (nm : String)
    (hd : 2 ≤ d.length) (ha : a ≠ 0) :
    process_ivt ⟨some d, some a, cl, nm⟩ =
      Except.ok (d ++ [d.getD 1 0 * 1000 / a, d.getD 0 0 * (d.getD 1 0 * 1000 / a)],
        Event.publish "data/processed/it_measurement") := by
  unfold process_ivt
  simp only [getKey_some, listGet_ok (show 1 < d.length by omega),
    listGet_ok (show 0 < d.length by omega)]
  simp [ha]

/-- Successful run of `process_iv` on a well-formed payload: every row gets
`j = row[1] * 1000 / area` and `p = row[0] * j` appended, vectorized, and
the augmented payload is published on the processed topic. -/
theorem process_iv_ok (rows : List (List ℚ)) (a : ℚ) (cl : Bool) (nm : String)
    (h2 : 2 ≤ (rows.headD []).length) :
    process_iv ⟨some rows, some a, cl, nm⟩ =
      Except.ok (⟨(rows.headD []).length + 1 + 1,
        rows.map (fun r => r ++ [r.getD 1 0 * 1000 / a,
          r.getD 0 0 * (r.getD 1 0 * 1000 / a)])⟩,
        Event.publish "data/processed/iv_measurement") := by
  unfold process_iv
  simp only [getKey_some]
  rw [if_neg (show ¬ (npArray rows).ncols < 2 from Nat.not_lt.mpr h2)]
  show Except.ok (appendColumn (appendColumn (npArray rows) _) _, _) = _
  unfold npArray
  rw [appendColumn_map, appendColumn_map2]
  simp

theorem set_zero_getD_zero {r : List ℚ} (v : ℚ) (h : r ≠ []) :
    (r.set 0 v).getD 0 0 = v := by
  cases r with
  | nil => exact absurd rfl h
  | cons x t => rfl

theorem set_zero_getD_two (r : List ℚ) (v : ℚ) :
    (r.set 0 v).getD 2 0 = r.getD 2 0 := by
  cases r with
  | nil => rfl
  | cons x t => rfl

theorem set_zero_getD_one (r : List ℚ) (v : ℚ) :
    (r.set 0 v).getD 1 0 = r.getD 1 0 := by
  cases r with
  | nil => rfl
  | cons x t => rfl

theorem getD_snoc_length {α : Type} (l : List α) (x d : α) :
    (l ++ [x]).getD l.length d = x := by
  rw [List.getD_append_right _ _ _ _ (Nat.le_refl _), Nat.sub_self]
  rfl

theorem getD_map_lt {α β : Type} (f : α → β) (l : List α) {i : Nat}
    (h : i < l.length) (d : β) (d0 : α) :
    (l.map f).getD i d = f (l.getD i d0) := by
  rw [List.getD_eq_getElem _ _ (by simpa using h), List.getD_eq_getElem _ _ h,
    List.getElem_map]

theorem getD_list_mem {α : Type} (l : List α) {i : Nat} (h : i < l.length) (d : α) :
    l.getD i d ∈ l := by
  rw [List.getD_eq_getElem _ _ h]
  exact List.getElem_mem h

theorem headD_eq_getD_zero {α : Type} (l : List α) (d : α) :
    l.headD d = l.getD 0 d := by
  cases l <;> rfl

/-- The event returned by a successful `process_ivt` is the republication
on the processed it topic. -/
theorem process_ivt_event {p : ITPayload} {d : List ℚ} {ev : Event}
    (h : process_ivt p = Except.ok (d, ev)) :
    ev = Event.publish "data/processed/it_measurement" := by
  simp only [process_ivt] at h
  split at h
  · exact Except.noConfusion h
  · split at h
    · exact Except.noConfusion h
    · split at h
      · exact Except.noConfusion h
      · split at h
        · exact Except.noConfusion h
        · split at h
          · exact Except.noConfusion h
          · injection h with h1
            injection h1 with h2 h3
            exact h3.symm

/-- The event returned by a successful `process_iv` is the republication
on the processed iv topic. -/
theorem process_iv_event {p : IVPayload} {d : Mat} {ev : Event}
    (h : process_iv p = Except.ok (d, ev)) :
    ev = Event.publish "data/processed/iv_measurement" := by
  simp only [process_iv] at h
  split at h
  · exact Except.noConfusion h
  · split at h
    · exact Except.noConfusion h
    · split at h
      · exact Except.noConfusion h
      · injection h with h1
        injection h1 with h2 h3
        exact h3.symm

/-- Inversion of a successful non-clear it data handling: recover the
intermediate values and the resulting state and trace. -/
theorem on_message_it_data_ok {s : ITState} {p : ITPayload} {s2 : ITState}
    {evs : List Event} (hc : p.clear = false)
    (h : on_message_it s (ITMsg.data p) = Except.ok (s2, evs)) :
    ∃ pdata t j appended,
      process_ivt p =
        Except.ok (pdata, Event.publish "data/processed/it_measurement") ∧
      listGet pdata 2 = Except.ok t ∧
      listGet pdata 4 = Except.ok j ∧
      matAppendRow (s.heap.getD s.snapRef ⟨3, []⟩) [0, j, t] = Except.ok appended ∧
      s2 = ⟨s.heap ++ [renormalize appended], p, s.heap.length, s.paused,
        s.config⟩ ∧
      evs = [Event.publish "data/processed/it_measurement", Event.cachePush] := by
  simp only [on_message_it, hc, Bool.false_eq_true, if_false] at h
  split at h
  · exact Except.noConfusion h
  case _ pr pdata ev heq =>
    split at h
    · exact Except.noConfusion h
    case _ t hteq =>
      split at h
      · exact Except.noConfusion h
      case _ j hjeq =>
        split at h
        · exact Except.noConfusion h
        case _ appended haeq =>
          injection h with h1
          injection h1 with h2 h3
          have hev := process_ivt_event heq
          subst hev
          exact ⟨pdata, t, j, appended, heq, hteq, hjeq, haeq, h2.symm, h3.symm⟩

/-! ## Claim theorems -/

/-- C1: for every non-clear data message with device area A, the processor
appends `j = raw_current * 1000 / A` (`raw_current = data[1]`) and
`p = raw_voltage * j` (`raw_voltage = data[0]`) as two trailing columns —
scalar appends for the current-vs-time kind, a per-row vectorized append
for the current-vs-voltage kind. -/
theorem C1_derived_quantities (d : List ℚ) (rows : List (List ℚ)) (a : ℚ)
    (nm : String) (hd : 2 ≤ d.length) (hr : 2 ≤ (rows.headD []).length)
    (ha : a ≠ 0) :
    process_ivt ⟨some d, some a, false, nm⟩ =
      Except.ok (d ++ [d.getD 1 0 * 1000 / a, d.getD 0 0 * (d.getD 1 0 * 1000 / a)],
        Event.publish "data/processed/it_measurement")
    ∧ process_iv ⟨some rows, some a, false, nm⟩ =
      Except.ok (⟨(rows.headD []).length + 1 + 1,
        rows.map (fun r => r ++ [r.getD 1 0 * 1000 / a,
          r.getD 0 0 * (r.getD 1 0 * 1000 / a)])⟩,
        Event.publish "data/processed/iv_measurement") :=
  ⟨process_ivt_ok d a false nm hd ha, process_iv_ok rows a false nm hr⟩

/-- Core renormalization property: after `renormalize` on a 3-column
matrix, every row's column 0 is its raw time (column 2) minus row 0's raw
time. -/
theorem renormalize_prop (R : List (List ℚ)) (hR : ∀ r ∈ R, r.length = 3) :
    ∀ i, i < ((renormalize ⟨3, R⟩).rows.length) →
      ((renormalize ⟨3, R⟩).rows.getD i []).getD 0 0 =
        ((renormalize ⟨3, R⟩).rows.getD i []).getD 2 0 -
          ((renormalize ⟨3, R⟩).rows.getD 0 []).getD 2 0 := by
  intro i hi
  simp only [renormalize, List.length_map] at hi ⊢
  have h0 : 0 < R.length := Nat.pos_of_ne_zero (by
    intro h; rw [h] at hi; simp at hi)
  rw [getD_map_lt _ _ hi _ ([] : List ℚ), getD_map_lt _ _ h0 _ ([] : List ℚ)]
  have hmemi : R.getD i [] ∈ R := getD_list_mem R hi []
  have hnei : R.getD i [] ≠ [] := by
    intro h
    have h3 := hR _ hmemi
    rw [h] at h3
    simp at h3
  rw [set_zero_getD_zero _ hnei]
  rw [show ((3 : Nat) - 1) = 2 from rfl, set_zero_getD_two, set_zero_getD_two,
    headD_eq_getD_zero]

/-- C2: after every fold of a non-clear data message into the
current-vs-time series, row i's first column (time offset) equals row i's
raw time (column 2) minus row 0's raw time, for EVERY row of the published
series — the normalization is recomputed over the whole series, not only
for the new row. -/
theorem C2_time_renormalization (s : ITState) (p : ITPayload) (s2 : ITState)
    (evs : List Event)
    (hw : (s.heap.getD s.snapRef ⟨3, []⟩).WF)
    (hn : (s.heap.getD s.snapRef ⟨3, []⟩).ncols = 3)
    (hc : p.clear = false)
    (hok : on_message_it s (ITMsg.data p) = Except.ok (s2, evs)) :
    ∀ i, i < s2.series.rows.length →
      (s2.series.rows.getD i []).getD 0 0 =
        (s2.series.rows.getD i []).getD 2 0 -
          (s2.series.rows.getD 0 []).getD 2 0 := by
  obtain ⟨pdata, t, j, appended, hp, ht, hj, happ, hs2, hevs⟩ :=
    on_message_it_data_ok hc hok
  have happ2 : appended =
      ⟨3, (s.heap.getD s.snapRef ⟨3, []⟩).rows ++ [[0, j, t]]⟩ := by
    unfold matAppendRow at happ
    rw [if_pos (by rw [hn]; rfl)] at happ
    injection happ with h1
    rw [← h1, hn]
  have hser : s2.series = renormalize appended := by
    rw [hs2]
    unfold ITState.series
    exact getD_snoc_length _ _ _
  rw [hser, happ2]
  apply renormalize_prop
  intro r hr
  rcases List.mem_append.mp hr with h | h
  · rw [hw r h, hn]
  · simp at h
    rw [h]
    rfl

/-- The third incremental fold, evaluated. -/
theorem c2step3 : on_message_it c2s2 (ITMsg.data (c2p (506/5))) =
    Except.ok (c2s3,
      [Event.publish "data/processed/it_measurement", Event.cachePush]) := by
  with_unfolding_all rfl

/-- C2 witness: folding raw times `[100.0, 100.5, 101.2]` in one at a time
yields stored offsets `[0.0, 0.5, 1.2]`, and the renormalization property
holds at the third fold. -/
theorem C2_witness :
    on_message_it initIT (ITMsg.data (c2p 100)) = Except.ok (c2s1,
      [Event.publish "data/processed/it_measurement", Event.cachePush])
    ∧ on_message_it c2s1 (ITMsg.data (c2p (201/2))) = Except.ok (c2s2,
      [Event.publish "data/processed/it_measurement", Event.cachePush])
    ∧ on_message_it c2s2 (ITMsg.data (c2p (506/5))) = Except.ok (c2s3,
      [Event.publish "data/processed/it_measurement", Event.cachePush])
    ∧ (∀ i, i < c2s3.series.rows.length →
        (c2s3.series.rows.getD i []).getD 0 0 =
          (c2s3.series.rows.getD i []).getD 2 0 -
            (c2s3.series.rows.getD 0 []).getD 2 0)
    ∧ c2s3.series.rows.map (fun r => r.getD 0 0) = [0, 1/2, 6/5] := by
  refine ⟨?_, ?_, ?_, ?_, ?_⟩
  · with_unfolding_all rfl
  · with_unfolding_all rfl
  · exact c2step3
  · exact C2_time_renormalization c2s2 (c2p (506/5)) c2s3
      [Event.publish "data/processed/it_measurement", Event.cachePush]
      (by decide) rfl rfl c2step3
  · with_unfolding_all rfl

/-- C1 witness: at `I = 0.005`, `V = 0.6`, `A = 0.1` the appended derived
values are `j = 50` and `p = 30`, in both the scalar and vectorized paths. -/
theorem C1_witness :
    (2 ≤ ([6/10, 5/1000, 100, 0] : List ℚ).length)
    ∧ ((1 : ℚ)/10 ≠ 0)
    ∧ process_ivt ⟨some [6/10, 5/1000, 100, 0], some (1/10), false, "d"⟩ =
      Except.ok ([6/10, 5/1000, 100, 0, 50, 30],
        Event.publish "data/processed/it_measurement")
    ∧ process_iv ⟨some [[6/10, 5/1000, 100, 0]], some (1/10), false, "d"⟩ =
      Except.ok (⟨6, [[6/10, 5/1000, 100, 0, 50, 30]]⟩,
        Event.publish "data/processed/iv_measurement") := by
  refine ⟨by decide, by norm_num, ?_, ?_⟩
  · rw [(C1_derived_quantities [6/10, 5/1000, 100, 0] [[6/10, 5/1000, 100, 0]]
      (1/10) "d" (by decide) (by decide) (by norm_num)).1]
    with_unfolding_all rfl
  · rw [(C1_derived_quantities [6/10, 5/1000, 100, 0] [[6/10, 5/1000, 100, 0]]
      (1/10) "d" (by decide) (by decide) (by norm_num)).2]
    with_unfolding_all rfl

theorem selectCols_04 (c : Nat) (l : List (List ℚ)) (h : 4 < c) :
    selectCols ⟨c, l⟩ [0, 4] =
      Except.ok ⟨2, l.map (fun r => [r.getD 0 0, r.getD 4 0])⟩ := by
  unfold selectCols
  rw [if_pos (by simp; omega)]
  rfl

theorem zip_replicate_append (l : List (List ℚ)) (z : List ℚ) :
    (l.zip (List.replicate l.length z)).map (fun rc => rc.1 ++ rc.2) =
      l.map (fun r => r ++ z) := by
  induction l with
  | nil => rfl
  | cons x tl ih => simp [List.replicate_succ, ih]

theorem setTailCols_eq (m : Mat) (b : Mat) (hm : m.ncols = 4) (hb : b.ncols = 2)
    (hl : b.rows.length = m.rows.length) :
    setTailCols m 2 b =
      Except.ok ⟨m.ncols, (m.rows.zip b.rows).map (fun rc => rc.1.take 2 ++ rc.2)⟩ := by
  unfold setTailCols
  rw [if_pos (by rw [hm, hb]; exact ⟨Or.inl rfl, Or.inl hl⟩)]
  unfold broadcastRows
  rw [if_pos hl]
  have he : ∀ rc : List ℚ × List ℚ,
      rc.1.take 2 ++ expandRow (m.ncols - 2) b.ncols rc.2 =
        rc.1.take 2 ++ rc.2 := by
    intro rc
    rw [hb]
    rfl
  simp only [he]

/-- The sweep-shaped rows produced by `process_iv` on 4-column raw rows:
selecting columns `[0, 4]` of the augmented matrix picks each raw row's
bias (column 0) and its appended current density `j`. -/
theorem processed_cols_04 (rows : List (List ℚ)) (a : ℚ)
    (hrw : ∀ r ∈ rows, r.length = 4) :
    (rows.map (fun r => r ++ [r.getD 1 0 * 1000 / a,
        r.getD 0 0 * (r.getD 1 0 * 1000 / a)])).map
      (fun r => [r.getD 0 0, r.getD 4 0]) =
      rows.map (fun r => [r.getD 0 0, r.getD 1 0 * 1000 / a]) := by
  rw [List.map_map]
  apply List.map_congr_left
  intro r hr
  have h4 := hrw r hr
  simp only [Function.comp]
  rw [List.getD_append _ _ _ _ (by omega),
    List.getD_append_right _ _ _ _ (by omega), h4]
  simp

/-- C3: folding a non-clear sweep (4-column raw rows) into an EMPTY
current-vs-voltage series allocates a fresh table whose columns 0-1 are the
sweep's `(bias, j)` and whose columns 2-3 are zero-filled; folding a
further sweep of matching length into a NON-EMPTY series overwrites, in
place, only columns 2-3 with the new sweep's `(bias, j)`, keeping each
row's first two columns (`rc.1.take 2`) unchanged. -/
theorem C3_two_scan_policy (s : IVState) (rows : List (List ℚ)) (a : ℚ)
    (nm : String) (hn : s.series.ncols = 4)
    (hrw : ∀ r ∈ rows, r.length = 4) (hr4 : (rows.headD []).length = 4)
    (_ha : a ≠ 0) :
    (s.series.rows = [] →
      on_message_iv s (IVMsg.data ⟨some rows, some a, false, nm⟩) =
        Except.ok (⟨s.heap ++ [⟨4, rows.map (fun r =>
            [r.getD 0 0, r.getD 1 0 * 1000 / a, 0, 0])⟩],
          ⟨some rows, some a, false, nm⟩, s.heap.length, s.paused, s.config⟩,
          [Event.publish "data/processed/iv_measurement", Event.cachePush]))
    ∧ (s.series.rows ≠ [] → rows.length = s.series.rows.length →
      on_message_iv s (IVMsg.data ⟨some rows, some a, false, nm⟩) =
        Except.ok (⟨s.heap.set s.snapRef ⟨4, (s.series.rows.zip
            (rows.map (fun r => [r.getD 0 0, r.getD 1 0 * 1000 / a]))).map
            (fun rc => rc.1.take 2 ++ rc.2)⟩,
          ⟨some rows, some a, false, nm⟩, s.snapRef, s.paused, s.config⟩,
          [Event.publish "data/processed/iv_measurement", Event.cachePush])) := by
  have hp := process_iv_ok rows a false nm (by rw [hr4]; omega)
  have hsel := selectCols_04 ((rows.headD []).length + 1 + 1)
    (rows.map (fun r => r ++ [r.getD 1 0 * 1000 / a,
      r.getD 0 0 * (r.getD 1 0 * 1000 / a)])) (by rw [hr4]; omega)
  rw [processed_cols_04 rows a hrw] at hsel
  constructor
  · intro hemp
    have hlen : (s.heap.getD s.snapRef ⟨4, []⟩).rows.length = 0 := by
      unfold IVState.series at hemp
      rw [hemp]
      rfl
    simp only [on_message_iv, Bool.false_eq_true, if_false, hp, hsel, hlen,
      if_pos]
    unfold matHAppend zerosLike
    rw [if_pos (by rw [List.length_replicate])]
    simp only [zip_replicate_append, List.map_map]
    have hrows : ∀ r ∈ rows,
        ((fun r => r ++ List.replicate 2 (0 : ℚ)) ∘
          fun r => [r.getD 0 0, r.getD 1 0 * 1000 / a]) r
          = [r.getD 0 0, r.getD 1 0 * 1000 / a, 0, 0] := by
      intro r hr
      rfl
    rw [List.map_congr_left hrows]
  · intro hne hlen
    have hlen0 : ¬ (s.heap.getD s.snapRef ⟨4, []⟩).rows.length = 0 := by
      unfold IVState.series at hne
      simpa [List.length_eq_zero] using hne
    have hset := setTailCols_eq (s.heap.getD s.snapRef ⟨4, []⟩)
      ⟨2, rows.map (fun r => [r.getD 0 0, r.getD 1 0 * 1000 / a])⟩
      hn rfl (by simpa [IVState.series] using hlen)
    simp only [on_message_iv, Bool.false_eq_true, if_false, hp, hsel, hlen0,
      if_neg, ite_false, hset]
    have hn2 : (s.heap.getD s.snapRef (⟨4, []⟩ : Mat)).ncols = 4 := hn
    rw [hn2]
    rfl

/-- Inversion of a successful non-clear iv data handling: the trace is
publish-then-push, and the state went through either the seed branch
(fresh array appended to the heap) or the overwrite branch (the published
heap cell updated in place and re-pushed). -/
theorem on_message_iv_data_ok {s : IVState} {p : IVPayload} {s2 : IVState}
    {evs : List Event} (hc : p.clear = false)
    (h : on_message_iv s (IVMsg.data p) = Except.ok (s2, evs)) :
    ∃ pdata sub,
      process_iv p =
        Except.ok (pdata, Event.publish "data/processed/iv_measurement") ∧
      selectCols pdata [0, 4] = Except.ok sub ∧
      evs = [Event.publish "data/processed/iv_measurement", Event.cachePush] ∧
      (((s.heap.getD s.snapRef ⟨4, []⟩).rows.length = 0 ∧
        ∃ newMat, matHAppend sub (zerosLike sub) = Except.ok newMat ∧
          s2 = ⟨s.heap ++ [newMat], p, s.heap.length, s.paused, s.config⟩) ∨
       ((s.heap.getD s.snapRef ⟨4, []⟩).rows.length ≠ 0 ∧
        ∃ updated,
          setTailCols (s.heap.getD s.snapRef ⟨4, []⟩) 2 sub = Except.ok updated ∧
          s2 = ⟨s.heap.set s.snapRef updated, p, s.snapRef, s.paused,
            s.config⟩)) := by
  simp only [on_message_iv, hc, Bool.false_eq_true, if_false] at h
  split at h
  · exact Except.noConfusion h
  case _ pr pdata ev heq =>
    have hev := process_iv_event heq
    subst hev
    split at h
    case _ hcond =>
      split at h
      · exact Except.noConfusion h
      case _ sub hseq =>
        split at h
        · exact Except.noConfusion h
        case _ newMat hneq =>
          injection h with h1
          injection h1 with h2 h3
          exact ⟨pdata, sub, heq, hseq, h3.symm,
            Or.inl ⟨hcond, newMat, hneq, h2.symm⟩⟩
    case _ hcond =>
      split at h
      · exact Except.noConfusion h
      case _ sub hseq =>
        split at h
        · exact Except.noConfusion h
        case _ updated hueq =>
          injection h with h1
          injection h1 with h2 h3
          exact ⟨pdata, sub, heq, hseq, h3.symm,
            Or.inr ⟨hcond, updated, hueq, h2.symm⟩⟩

/-- C6: a `clear=true` data message resets the kind's series to exactly
zero rows with its declared column count (3 for current-vs-time, 4 for
current-vs-voltage), pushes that snapshot, and its trace contains no
publish event — no derived-quantity computation or republication happens. -/
theorem C6_clear_resets (sIT : ITState) (pIT : ITPayload) (sIV : IVState)
    (pIV : IVPayload) (h1 : pIT.clear = true) (h2 : pIV.clear = true) :
    on_message_it sIT (ITMsg.data pIT) = Except.ok
      (⟨sIT.heap ++ [⟨3, []⟩], pIT, sIT.heap.length, sIT.paused, sIT.config⟩,
        [Event.cachePush])
    ∧ ITState.series ⟨sIT.heap ++ [⟨3, []⟩], pIT, sIT.heap.length, sIT.paused,
        sIT.config⟩ = ⟨3, []⟩
    ∧ on_message_iv sIV (IVMsg.data pIV) = Except.ok
      (⟨sIV.heap ++ [⟨4, []⟩], pIV, sIV.heap.length, sIV.paused, sIV.config⟩,
        [Event.cachePush])
    ∧ IVState.series ⟨sIV.heap ++ [⟨4, []⟩], pIV, sIV.heap.length, sIV.paused,
        sIV.config⟩ = ⟨4, []⟩ := by
  refine ⟨?_, ?_, ?_, ?_⟩
  · simp [on_message_it, h1]
  · exact getD_snoc_length _ _ _
  · simp [on_message_iv, h2]
  · exact getD_snoc_length _ _ _

/-- C6 witness: at the initial states with the initial clear message. -/
theorem C6_witness :
    on_message_it initIT (ITMsg.data initITPayload) = Except.ok
      (⟨initIT.heap ++ [⟨3, []⟩], initITPayload, initIT.heap.length,
        initIT.paused, initIT.config⟩, [Event.cachePush])
    ∧ ITState.series ⟨initIT.heap ++ [⟨3, []⟩], initITPayload,
        initIT.heap.length, initIT.paused, initIT.config⟩ = ⟨3, []⟩
    ∧ on_message_iv initIV (IVMsg.data initIVPayload) = Except.ok
      (⟨initIV.heap ++ [⟨4, []⟩], initIVPayload, initIV.heap.length,
        initIV.paused, initIV.config⟩, [Event.cachePush])
    ∧ IVState.series ⟨initIV.heap ++ [⟨4, []⟩], initIVPayload,
        initIV.heap.length, initIV.paused, initIV.config⟩ = ⟨4, []⟩ :=
  C6_clear_resets initIT initITPayload initIV initIVPayload rfl rfl

/-- C7 (amended): for every successfully handled non-clear data message the
trace is `[publish, cachePush]` — the republication on the processed-data
topic is initiated inside the derived-quantity step, BEFORE the
latest-snapshot cache push, not after it. -/
theorem C7_republish_before_push :
    (∀ (s : ITState) (p : ITPayload) (s2 : ITState) (evs : List Event),
      p.clear = false → on_message_it s (ITMsg.data p) = Except.ok (s2, evs) →
      evs = [Event.publish "data/processed/it_measurement", Event.cachePush])
    ∧ (∀ (s : IVState) (p : IVPayload) (s2 : IVState) (evs : List Event),
      p.clear = false → on_message_iv s (IVMsg.data p) = Except.ok (s2, evs) →
      evs = [Event.publish "data/processed/iv_measurement", Event.cachePush]) := by
  constructor
  · intro s p s2 evs hc h
    obtain ⟨_, _, _, _, _, _, _, _, _, hevs⟩ := on_message_it_data_ok hc h
    exact hevs
  · intro s p s2 evs hc h
    obtain ⟨_, _, _, _, hevs, _⟩ := on_message_iv_data_ok hc h
    exact hevs

/-- C7 counterexample: on a concrete non-clear it message, the handler's
trace starts with the publish event — the republication is initiated
BEFORE the cache push, refuting the claim that it is initiated only after
the latest-snapshot cache push. -/
theorem C7_counterexample :
    on_message_it initIT
        (ITMsg.data ⟨some [1, 1/1000, 7, 0], some 1, false, "c"⟩) =
      Except.ok (⟨[⟨3, []⟩, ⟨3, [[0, 1, 7]]⟩],
        ⟨some [1, 1/1000, 7, 0], some 1, false, "c"⟩, 1, false, []⟩,
        [Event.publish "data/processed/it_measurement", Event.cachePush])
    ∧ ([Event.publish "data/processed/it_measurement",
        Event.cachePush].head? ≠ some Event.cachePush) := by
  constructor
  · with_unfolding_all rfl
  · decide

/-- C7 witness: the amended trace shape, instantiated on the concrete run
of `C7_counterexample`, with every hypothesis discharged there. -/
theorem C7_witness :
    ([Event.publish "data/processed/it_measurement", Event.cachePush] :
      List Event) =
      [Event.publish "data/processed/it_measurement", Event.cachePush] :=
  C7_republish_before_push.1 initIT ⟨some [1, 1/1000, 7, 0], some 1, false, "c"⟩
    ⟨[⟨3, []⟩, ⟨3, [[0, 1, 7]]⟩], ⟨some [1, 1/1000, 7, 0], some 1, false, "c"⟩,
      1, false, []⟩
    [Event.publish "data/processed/it_measurement", Event.cachePush] rfl
    (by with_unfolding_all rfl)

/-- C8: handling a pause message replaces only the pause flag (heap,
snapshot, and config are untouched) and emits nothing; and the pause
flag's value has no effect on data ingestion — the handler's result on a
data message is the same, apart from the carried-through pause flag, for
both flag values, and data handling carries the flag through unchanged. -/
theorem C8_pause_independence :
    (∀ (s : ITState) (b : Bool), on_message_it s (ITMsg.pause b) =
      Except.ok (⟨s.heap, s.snapMsg, s.snapRef, b, s.config⟩, []))
    ∧ (∀ (s : IVState) (b : Bool), on_message_iv s (IVMsg.pause b) =
      Except.ok (⟨s.heap, s.snapMsg, s.snapRef, b, s.config⟩, []))
    ∧ (∀ (h : List Mat) (sm : ITPayload) (r : Nat) (c : Config)
        (b1 b2 : Bool) (p : ITPayload),
        coreIT (on_message_it ⟨h, sm, r, b1, c⟩ (ITMsg.data p)) =
          coreIT (on_message_it ⟨h, sm, r, b2, c⟩ (ITMsg.data p)))
    ∧ (∀ (h : List Mat) (sm : IVPayload) (r : Nat) (c : Config)
        (b1 b2 : Bool) (p : IVPayload),
        coreIV (on_message_iv ⟨h, sm, r, b1, c⟩ (IVMsg.data p)) =
          coreIV (on_message_iv ⟨h, sm, r, b2, c⟩ (IVMsg.data p)))
    ∧ (∀ (s : ITState) (p : ITPayload) (s2 : ITState) (evs : List Event),
        on_message_it s (ITMsg.data p) = Except.ok (s2, evs) →
        s2.paused = s.paused)
    ∧ (∀ (s : IVState) (p : IVPayload) (s2 : IVState) (evs : List Event),
        on_message_iv s (IVMsg.data p) = Except.ok (s2, evs) →
        s2.paused = s.paused) := by
  refine ⟨fun s b => rfl, fun s b => rfl, ?_, ?_, ?_, ?_⟩
  · intro h sm r c b1 b2 p
    by_cases hc : p.clear = true
    · simp only [on_message_it, hc, ite_true]
      rfl
    · simp only [on_message_it, hc, Bool.false_eq_true, if_false]
      repeat' (first | rfl | split)
  · intro h sm r c b1 b2 p
    by_cases hc : p.clear = true
    · simp only [on_message_iv, hc, ite_true]
      rfl
    · simp only [on_message_iv, hc, Bool.false_eq_true, if_false]
      repeat' (first | rfl | split)
  · intro s p s2 evs h
    by_cases hc : p.clear = true
    · simp only [on_message_it, hc, if_pos, ite_true] at h
      injection h with h1
      injection h1 with h2 h3
      rw [← h2]
    · obtain ⟨_, _, _, _, _, _, _, _, hs2, _⟩ :=
        on_message_it_data_ok (Bool.not_eq_true _ ▸ hc) h
      rw [hs2]
  · intro s p s2 evs h
    by_cases hc : p.clear = true
    · simp only [on_message_iv, hc, if_pos, ite_true] at h
      injection h with h1
      injection h1 with h2 h3
      rw [← h2]
    · obtain ⟨_, _, _, _, _, hbr⟩ :=
        on_message_iv_data_ok (Bool.not_eq_true _ ▸ hc) h
      rcases hbr with ⟨_, _, _, hs2⟩ | ⟨_, _, _, hs2⟩ <;> rw [hs2]

/-- C8 witness: a concrete pause toggle leaves everything but the flag
unchanged, and a concrete data handling is pause-flag independent. -/
theorem C8_witness :
    on_message_it initIT (ITMsg.pause true) = Except.ok
      (⟨initIT.heap, initIT.snapMsg, initIT.snapRef, true, initIT.config⟩, [])
    ∧ (⟨[⟨3, []⟩, ⟨3, [[0, 1, 7]]⟩],
        (⟨some [1, 1/1000, 7, 0], some 1, false, "c"⟩ : ITPayload),
        1, false, []⟩ : ITState).paused = initIT.paused := by
  constructor
  · exact C8_pause_independence.1 initIT true
  · exact C8_pause_independence.2.2.2.2.1 initIT
      ⟨some [1, 1/1000, 7, 0], some 1, false, "c"⟩ _
      [Event.publish "data/processed/it_measurement", Event.cachePush]
      (by with_unfolding_all rfl)

theorem getD_set_self {α : Type} (l : List α) {n : Nat} (a d : α)
    (h : n < l.length) : (l.set n a).getD n d = a := by
  rw [List.getD_eq_getElem _ _ (by simpa using h)]
  exact List.getElem_set_self _

/-- C4 (amended): in the current-vs-time pipeline, handling any message
never modifies an existing heap cell — in particular the previously
published snapshot's array is preserved (`np.append` copies, and the
in-place column write hits only the fresh copy).  In the
current-vs-voltage pipeline, however, a non-clear data message folded into
a NON-EMPTY series writes columns 2-3 into the published array in place
and pushes the SAME reference again (`s2.snapRef = s.snapRef`), so the
previously published snapshot's series is overwritten rather than
preserved — replacement is not total for that pipeline. -/
theorem C4_snapshot_aliasing :
    (∀ (s : ITState) (m : ITMsg) (s2 : ITState) (evs : List Event) (i : Nat),
      on_message_it s m = Except.ok (s2, evs) → i < s.heap.length →
      s2.heap.getD i ⟨3, []⟩ = s.heap.getD i ⟨3, []⟩)
    ∧ (∀ (s : IVState) (p : IVPayload) (s2 : IVState) (evs : List Event),
      p.clear = false → (s.heap.getD s.snapRef ⟨4, []⟩).rows.length ≠ 0 →
      s.snapRef < s.heap.length →
      on_message_iv s (IVMsg.data p) = Except.ok (s2, evs) →
      s2.snapRef = s.snapRef ∧ s2.heap = s.heap.set s.snapRef s2.series) := by
  constructor
  · intro s m s2 evs i hok hi
    cases m with
    | data payload =>
      by_cases hc : payload.clear = true
      · simp only [on_message_it, hc, ite_true] at hok
        injection hok with h1
        injection h1 with h2 h3
        rw [← h2]
        exact List.getD_append _ _ _ _ hi
      · obtain ⟨_, _, _, _, _, _, _, _, hs2, _⟩ :=
          on_message_it_data_ok (Bool.not_eq_true _ ▸ hc) hok
        rw [hs2]
        exact List.getD_append _ _ _ _ hi
    | run cfg =>
      injection hok with h1
      injection h1 with h2 h3
      rw [← h2]
    | pause b =>
      injection hok with h1
      injection h1 with h2 h3
      rw [← h2]
  · intro s p s2 evs hc hne href hok
    obtain ⟨pdata, sub, hp, hs, hevs, hbr⟩ := on_message_iv_data_ok hc hok
    rcases hbr with ⟨hz, _⟩ | ⟨_, updated, hu, hs2⟩
    · exact absurd hz hne
    · rw [hs2]
      refine ⟨rfl, ?_⟩
      have : (IVState.series ⟨s.heap.set s.snapRef updated, p, s.snapRef,
          s.paused, s.config⟩) = updated := by
        unfold IVState.series
        exact getD_set_self _ _ _ href
      rw [this]

/-- C4 counterexample: handling the further sweep mutates the array the
previously published snapshot refers to — heap cell 0, the one the prior
snapshot points at, reads `[1, 50, 2, 40]` afterwards instead of the
`[1, 50, 0, 0]` it held before, so a reader of the prior snapshot does not
see the fully-formed prior series. -/
theorem C4_counterexample :
    on_message_iv c4s (IVMsg.data c4p) =
      Except.ok (⟨[⟨4, [[1, 50, 2, 40]]⟩], c4p, 0, false, []⟩,
        [Event.publish "data/processed/iv_measurement", Event.cachePush])
    ∧ (⟨[⟨4, [[1, 50, 2, 40]]⟩], c4p, 0, false, []⟩ : IVState).heap.getD 0 ⟨4, []⟩ ≠
      c4s.heap.getD 0 ⟨4, []⟩ := by
  constructor
  · with_unfolding_all rfl
  · intro h
    simp only [c4s, List.getD_cons_zero, Mat.mk.injEq] at h
    have h2 := h.2
    simp only [List.cons.injEq] at h2
    have h3 := h2.1.2.2.1
    norm_num at h3

/-- C4 witness: the it-side preservation at a concrete non-clear fold, and
the iv-side in-place overwrite at the concrete `C4_counterexample` run. -/
theorem C4_witness :
    (⟨[⟨3, []⟩, ⟨3, [[0, 1, 7]]⟩],
      (⟨some [1, 1/1000, 7, 0], some 1, false, "c"⟩ : ITPayload), 1, false,
      []⟩ : ITState).heap.getD 0 ⟨3, []⟩ = initIT.heap.getD 0 ⟨3, []⟩
    ∧ ((⟨[⟨4, [[1, 50, 2, 40]]⟩], c4p, 0, false, []⟩ : IVState).snapRef =
        c4s.snapRef
      ∧ (⟨[⟨4, [[1, 50, 2, 40]]⟩], c4p, 0, false, []⟩ : IVState).heap =
        c4s.heap.set c4s.snapRef
          (⟨[⟨4, [[1, 50, 2, 40]]⟩], c4p, 0, false, []⟩ : IVState).series) := by
  constructor
  · exact C4_snapshot_aliasing.1 initIT
      (ITMsg.data ⟨some [1, 1/1000, 7, 0], some 1, false, "c"⟩) _
      [Event.publish "data/processed/it_measurement", Event.cachePush] 0
      (by with_unfolding_all rfl) (by decide)
  · exact C4_snapshot_aliasing.2 c4s c4p _
      [Event.publish "data/processed/iv_measurement", Event.cachePush] rfl
      (by decide) (by decide) (by with_unfolding_all rfl)

/-- C5 (amended): a missing area key, a missing data key, or missing data
columns makes the data handler raise before any state is touched — the
handler returns an error, so the cache still holds the prior snapshot —
and an exactly-zero area raises ZeroDivisionError in the scalar
current-vs-time path; but a NEGATIVE (non-positive) area is not a failure:
the record is computed, republished, and cached. -/
theorem C5_failure_propagation :
    (∀ (s : ITState) (p : ITPayload), p.clear = false → p.data = none →
      on_message_it s (ITMsg.data p) = Except.error PyErr.keyError)
    ∧ (∀ (s : ITState) (p : ITPayload) (d : List ℚ), p.clear = false →
      p.data = some d → p.area = none →
      on_message_it s (ITMsg.data p) = Except.error PyErr.keyError)
    ∧ (∀ (s : ITState) (p : ITPayload) (d : List ℚ) (a : ℚ), p.clear = false →
      p.data = some d → p.area = some a → d.length ≤ 1 →
      on_message_it s (ITMsg.data p) = Except.error PyErr.indexError)
    ∧ (∀ (s : ITState) (p : ITPayload) (d : List ℚ), p.clear = false →
      p.data = some d → p.area = some 0 → 2 ≤ d.length →
      on_message_it s (ITMsg.data p) = Except.error PyErr.zeroDivisionError)
    ∧ (∀ (s : IVState) (p : IVPayload) (rows : List (List ℚ)), p.clear = false →
      p.data = some rows → p.area = none →
      on_message_iv s (IVMsg.data p) = Except.error PyErr.keyError)
    ∧ (∀ (s : ITState) (nm : String) (d : List ℚ) (a : ℚ), a < 0 →
      4 ≤ d.length → (s.heap.getD s.snapRef ⟨3, []⟩).ncols = 3 →
      ∃ s2, on_message_it s (ITMsg.data ⟨some d, some a, false, nm⟩) =
        Except.ok (s2,
          [Event.publish "data/processed/it_measurement", Event.cachePush])) := by
  refine ⟨?_, ?_, ?_, ?_, ?_, ?_⟩
  · intro s p hc hd
    have hp : process_ivt p = Except.error PyErr.keyError := by
      simp [process_ivt, hd, getKey]
    simp [on_message_it, hc, hp]
  · intro s p d hc hd ha
    have hp : process_ivt p = Except.error PyErr.keyError := by
      simp [process_ivt, hd, ha, getKey]
    simp [on_message_it, hc, hp]
  · intro s p d a hc hd ha hl
    have hp : process_ivt p = Except.error PyErr.indexError := by
      simp [process_ivt, hd, ha, getKey, listGet_err hl]
    simp [on_message_it, hc, hp]
  · intro s p d hc hd ha hl
    have hp : process_ivt p = Except.error PyErr.zeroDivisionError := by
      simp only [process_ivt, hd, ha, getKey,
        listGet_ok (show 1 < d.length by omega)]
      simp
    simp [on_message_it, hc, hp]
  · intro s p rows hc hd ha
    have hp : process_iv p = Except.error PyErr.keyError := by
      simp [process_iv, hd, ha, getKey]
    simp [on_message_iv, hc, hp]
  · intro s nm d a ha hd4 hn
    have hp := process_ivt_ok d a false nm (by omega) (ne_of_lt ha)
    set pd := d ++ [d.getD 1 0 * 1000 / a,
      d.getD 0 0 * (d.getD 1 0 * 1000 / a)] with hpd
    have hlen : pd.length = d.length + 2 := by rw [hpd]; simp
    have ht := listGet_ok (l := pd) (i := 2) (by omega)
    have hj := listGet_ok (l := pd) (i := 4) (by omega)
    have happ : matAppendRow (s.heap.getD s.snapRef ⟨3, []⟩)
        [0, pd.getD 4 0, pd.getD 2 0] =
        Except.ok ⟨(s.heap.getD s.snapRef ⟨3, []⟩).ncols,
          (s.heap.getD s.snapRef ⟨3, []⟩).rows ++
            [[0, pd.getD 4 0, pd.getD 2 0]]⟩ := by
      unfold matAppendRow
      rw [if_pos (by rw [hn]; rfl)]
    refine ⟨⟨s.heap ++ [renormalize ⟨(s.heap.getD s.snapRef ⟨3, []⟩).ncols,
        (s.heap.getD s.snapRef ⟨3, []⟩).rows ++ [[0, pd.getD 4 0, pd.getD 2 0]]⟩],
      ⟨some d, some a, false, nm⟩, s.heap.length, s.paused, s.config⟩, ?_⟩
    simp only [on_message_it, Bool.false_eq_true, if_false, hp, ht, hj, happ]

/-- C5 counterexample: a non-clear it message with NEGATIVE area `-0.1`
is handled successfully — nothing propagates, the (sign-flipped) augmented
record is republished and the cache is updated to a new non-empty series —
refuting the claim that a non-positive area terminates handling with the
cache unchanged. -/
theorem C5_counterexample :
    on_message_it initIT (ITMsg.data ⟨some [6/10, 5/1000, 100, 0],
        some (-(1/10)), false, "n"⟩) =
      Except.ok (⟨[⟨3, []⟩, ⟨3, [[0, -50, 100]]⟩],
        ⟨some [6/10, 5/1000, 100, 0], some (-(1/10)), false, "n"⟩, 1, false, []⟩,
        [Event.publish "data/processed/it_measurement", Event.cachePush])
    ∧ (⟨[⟨3, []⟩, ⟨3, [[0, -50, 100]]⟩],
        ⟨some [6/10, 5/1000, 100, 0], some (-(1/10)), false, "n"⟩, 1, false,
        []⟩ : ITState).series ≠ initIT.series := by
  constructor
  · with_unfolding_all rfl
  · intro h
    simp [ITState.series, initIT, Mat.mk.injEq] at h

/-- C5 witness: concrete instances of each failure mode and of the
negative-area success. -/
theorem C5_witness :
    on_message_it initIT (ITMsg.data ⟨none, none, false, "w"⟩) =
      Except.error PyErr.keyError
    ∧ on_message_it initIT (ITMsg.data ⟨some [1, 2, 3, 4], none, false, "w"⟩) =
      Except.error PyErr.keyError
    ∧ on_message_it initIT (ITMsg.data ⟨some [5], some 1, false, "w"⟩) =
      Except.error PyErr.indexError
    ∧ on_message_it initIT (ITMsg.data ⟨some [1, 2], some 0, false, "w"⟩) =
      Except.error PyErr.zeroDivisionError
    ∧ on_message_iv initIV (IVMsg.data ⟨some [[1, 2]], none, false, "w"⟩) =
      Except.error PyErr.keyError
    ∧ exceptOk (on_message_it initIT (ITMsg.data ⟨some [6/10, 5/1000, 100, 0],
        some (-(1/10)), false, "n"⟩)) = true := by
  refine ⟨?_, ?_, ?_, ?_, ?_, ?_⟩
  · exact C5_failure_propagation.1 initIT _ rfl rfl
  · exact C5_failure_propagation.2.1 initIT _ [1, 2, 3, 4] rfl rfl rfl
  · exact C5_failure_propagation.2.2.1 initIT _ [5] 1 rfl rfl rfl (by decide)
  · exact C5_failure_propagation.2.2.2.1 initIT _ [1, 2] rfl rfl rfl (by decide)
  · exact C5_failure_propagation.2.2.2.2.1 initIV _ [[1, 2]] rfl rfl rfl
  · obtain ⟨s2, h⟩ := C5_failure_propagation.2.2.2.2.2 initIT "n"
      [6/10, 5/1000, 100, 0] (-(1/10)) (by norm_num) (by decide) rfl
    rw [h]
    rfl

/-- C3 witness: seeding an empty series with sweep A gives `[1, 10, 0, 0]`
(zero-filled columns 2-3); folding sweep B then gives `[1, 10, 1, 20]`
(columns 0-1 from A intact, columns 2-3 from B). -/
theorem C3_witness :
    on_message_iv initIV (IVMsg.data c3pA) = Except.ok (c3sA,
      [Event.publish "data/processed/iv_measurement", Event.cachePush])
    ∧ on_message_iv c3sA (IVMsg.data c3pB) = Except.ok (c3sB,
      [Event.publish "data/processed/iv_measurement", Event.cachePush]) := by
  constructor
  · show on_message_iv initIV
        (IVMsg.data ⟨some [[1, 1/100, 0, 0]], some 1, false, "d"⟩) =
      Except.ok (c3sA,
        [Event.publish "data/processed/iv_measurement", Event.cachePush])
    rw [(C3_two_scan_policy initIV [[1, 1/100, 0, 0]] 1 "d" rfl
      (by decide) rfl (by norm_num)).1 rfl]
    with_unfolding_all rfl
  · show on_message_iv c3sA
        (IVMsg.data ⟨some [[1, 2/100, 0, 0]], some 1, false, "d"⟩) =
      Except.ok (c3sB,
        [Event.publish "data/processed/iv_measurement", Event.cachePush])
    rw [(C3_two_scan_policy c3sA [[1, 2/100, 0, 0]] 1 "d" rfl
      (by decide) rfl (by norm_num)).2 (by decide) (by decide)]
    with_unfolding_all rfl

theorem map_snoc_getD_last {α β : Type} (f : α → β) (l : List α) (x : α)
    (d : β) :
    ((l ++ [x]).map f).getD (((l ++ [x]).map f).length - 1) d = f x := by
  have h2 : ((l ++ [x]).map f).length - 1 = (l.map f).length := by simp
  rw [h2]
  have h1 : (l ++ [x]).map f = l.map f ++ [f x] := by simp
  rw [h1]
  exact getD_snoc_length _ _ _

/-- The last row of a renormalized 3-column matrix keeps its column 1 (the
current density slot) unchanged. -/
theorem renormalize_last_col1 (R : List (List ℚ)) (row : List ℚ) :
    ((renormalize ⟨3, R ++ [row]⟩).rows.getD
        ((renormalize ⟨3, R ++ [row]⟩).rows.length - 1) []).getD 1 0 =
      row.getD 1 0 := by
  simp only [renormalize]
  rw [map_snoc_getD_last]
  exact set_zero_getD_one _ _

/-- C9 (amended): with a non-empty published current-vs-voltage series (a
4-column rectangular sweep), folding a further non-clear sweep succeeds iff
the incoming sweep has exactly as many rows as the stored series OR exactly
one row — numpy broadcasting replicates a single incoming row across every
stored row — and any other row-count mismatch raises ValueError instead of
storing the sweep. -/
theorem C9_sweep_length (s : IVState) (rows : List (List ℚ)) (a : ℚ)
    (nm : String) (hn : (s.heap.getD s.snapRef ⟨4, []⟩).ncols = 4)
    (hne : (s.heap.getD s.snapRef ⟨4, []⟩).rows.length ≠ 0)
    (hr4 : (rows.headD []).length = 4) (_ha : a ≠ 0) :
    exceptOk (on_message_iv s (IVMsg.data ⟨some rows, some a, false, nm⟩)) =
      true ↔
      (rows.length = (s.heap.getD s.snapRef ⟨4, []⟩).rows.length ∨
        rows.length = 1) := by
  have hp := process_iv_ok rows a false nm (by rw [hr4]; omega)
  have hsel := selectCols_04 ((rows.headD []).length + 1 + 1)
    (rows.map (fun r => r ++ [r.getD 1 0 * 1000 / a,
      r.getD 0 0 * (r.getD 1 0 * 1000 / a)])) (by rw [hr4]; omega)
  simp only [on_message_iv, Bool.false_eq_true, if_false, hp, hsel, hne,
    ite_false]
  unfold setTailCols
  by_cases hmatch : ((rows.map (fun r => [r.getD 0 0, r.getD 1 0 * 1000 / a])).length
      = (s.heap.getD s.snapRef ⟨4, []⟩).rows.length ∨
      (rows.map (fun r => [r.getD 0 0, r.getD 1 0 * 1000 / a])).length = 1)
  · rw [if_pos ⟨Or.inl (by rw [hn]), by simpa using hmatch⟩]
    simp only [exceptOk, true_iff]
    simpa using hmatch
  · rw [if_neg (by
      intro hcontra
      exact hmatch (by simpa using hcontra.2))]
    simp only [exceptOk, Bool.false_eq_true, false_iff]
    intro hcontra
    exact hmatch (by simpa using hcontra)

/-- C9 counterexample: folding a ONE-row sweep into a TWO-row stored
series does not fail — numpy broadcasting replicates the single `(bias, j)`
pair into columns 2-3 of both stored rows — refuting the claim that any
row-count difference raises instead of storing. -/
theorem C9_counterexample :
    on_message_iv
        ⟨[⟨4, [[1, 10, 0, 0], [2, 20, 0, 0]]⟩], initIVPayload, 0, false, []⟩
        (IVMsg.data ⟨some [[3, 1/1000, 0, 0]], some 1, false, "b"⟩) =
      Except.ok (⟨[⟨4, [[1, 10, 3, 1], [2, 20, 3, 1]]⟩],
        ⟨some [[3, 1/1000, 0, 0]], some 1, false, "b"⟩, 0, false, []⟩,
        [Event.publish "data/processed/iv_measurement", Event.cachePush])
    ∧ ([[(3 : ℚ), 1/1000, 0, 0]].length ≠
        ([[(1 : ℚ), 10, 0, 0], [2, 20, 0, 0]] : List (List ℚ)).length) := by
  constructor
  · with_unfolding_all rfl
  · decide

/-- C9 witness: a matching one-row fold succeeds; a 3-rows-into-1 fold
fails. -/
theorem C9_witness :
    exceptOk (on_message_iv
      ⟨[⟨4, [[1, 10, 0, 0]]⟩], initIVPayload, 0, false, []⟩
      (IVMsg.data ⟨some [[2, 3/1000, 0, 0]], some 1, false, "w"⟩)) = true
    ∧ exceptOk (on_message_iv
      ⟨[⟨4, [[1, 10, 0, 0]]⟩], initIVPayload, 0, false, []⟩
      (IVMsg.data ⟨some [[2, 3/1000, 0, 0], [3, 4/1000, 0, 0],
        [4, 5/1000, 0, 0]], some 1, false, "w"⟩)) = false := by
  constructor
  · exact (C9_sweep_length ⟨[⟨4, [[1, 10, 0, 0]]⟩], initIVPayload, 0, false, []⟩
      [[2, 3/1000, 0, 0]] 1 "w" rfl (by decide) rfl (by norm_num)).mpr
      (Or.inr rfl)
  · have h := C9_sweep_length ⟨[⟨4, [[1, 10, 0, 0]]⟩], initIVPayload, 0,
      false, []⟩ [[2, 3/1000, 0, 0], [3, 4/1000, 0, 0], [4, 5/1000, 0, 0]]
      1 "w" rfl (by decide) rfl (by norm_num)
    rw [Bool.eq_false_iff]
    intro hcontra
    exact absurd (h.mp hcontra) (by decide)

/-- C10 (amended): the it dispatcher reads the stored current density back
at the fixed index 4 of the augmented row, which holds the computed `j`
exactly when the raw data sequence has 4 fields.  For 0 or 1 raw fields the
handler fails at `data[1]`; for 2 raw fields it fails at `pdata[4]`; for 3
or more it succeeds and stores `pdata[4]` — which for 3 raw fields is the
POWER `p = data[0] * j` (numerically equal to `j` whenever
`data[0] = 1`), and for 5 or more raw fields is the raw field `data[4]`. -/
theorem C10_fixed_index (s : ITState) (nm : String) (d : List ℚ) (a : ℚ)
    (ha : a ≠ 0) (hn : (s.heap.getD s.snapRef ⟨3, []⟩).ncols = 3) :
    (d.length ≤ 1 →
      on_message_it s (ITMsg.data ⟨some d, some a, false, nm⟩) =
        Except.error PyErr.indexError)
    ∧ (d.length = 2 →
      on_message_it s (ITMsg.data ⟨some d, some a, false, nm⟩) =
        Except.error PyErr.indexError)
    ∧ (3 ≤ d.length →
      ∃ s2, on_message_it s (ITMsg.data ⟨some d, some a, false, nm⟩) =
          Except.ok (s2, [Event.publish "data/processed/it_measurement",
            Event.cachePush]) ∧
        (s2.series.rows.getD (s2.series.rows.length - 1) []).getD 1 0 =
          (d ++ [d.getD 1 0 * 1000 / a,
            d.getD 0 0 * (d.getD 1 0 * 1000 / a)]).getD 4 0)
    ∧ (d.length = 3 →
      (d ++ [d.getD 1 0 * 1000 / a,
        d.getD 0 0 * (d.getD 1 0 * 1000 / a)]).getD 4 0 =
        d.getD 0 0 * (d.getD 1 0 * 1000 / a))
    ∧ (d.length = 4 →
      (d ++ [d.getD 1 0 * 1000 / a,
        d.getD 0 0 * (d.getD 1 0 * 1000 / a)]).getD 4 0 =
        d.getD 1 0 * 1000 / a)
    ∧ (5 ≤ d.length →
      (d ++ [d.getD 1 0 * 1000 / a,
        d.getD 0 0 * (d.getD 1 0 * 1000 / a)]).getD 4 0 = d.getD 4 0) := by
  refine ⟨?_, ?_, ?_, ?_, ?_, ?_⟩
  · intro hl
    have hp : process_ivt ⟨some d, some a, false, nm⟩ =
        Except.error PyErr.indexError := by
      simp [process_ivt, getKey, listGet_err hl]
    simp only [on_message_it, Bool.false_eq_true, if_false, hp]
  · intro hl
    have hp := process_ivt_ok d a false nm (by omega) ha
    have ht := listGet_ok (l := d ++ [d.getD 1 0 * 1000 / a,
      d.getD 0 0 * (d.getD 1 0 * 1000 / a)]) (i := 2) (by simp; omega)
    have hj : listGet (d ++ [d.getD 1 0 * 1000 / a,
        d.getD 0 0 * (d.getD 1 0 * 1000 / a)]) 4 =
        Except.error PyErr.indexError :=
      listGet_err (by simp; omega)
    simp only [on_message_it, Bool.false_eq_true, if_false, hp, ht, hj]
  · intro hl
    have hp := process_ivt_ok d a false nm (by omega) ha
    set pd := d ++ [d.getD 1 0 * 1000 / a,
      d.getD 0 0 * (d.getD 1 0 * 1000 / a)] with hpd
    have hlen : pd.length = d.length + 2 := by rw [hpd]; simp
    have ht := listGet_ok (l := pd) (i := 2) (by omega)
    have hj := listGet_ok (l := pd) (i := 4) (by omega)
    have happ : matAppendRow (s.heap.getD s.snapRef ⟨3, []⟩)
        [0, pd.getD 4 0, pd.getD 2 0] =
        Except.ok ⟨(s.heap.getD s.snapRef ⟨3, []⟩).ncols,
          (s.heap.getD s.snapRef ⟨3, []⟩).rows ++
            [[0, pd.getD 4 0, pd.getD 2 0]]⟩ := by
      unfold matAppendRow
      rw [if_pos (by rw [hn]; rfl)]
    refine ⟨⟨s.heap ++ [renormalize ⟨(s.heap.getD s.snapRef ⟨3, []⟩).ncols,
        (s.heap.getD s.snapRef ⟨3, []⟩).rows ++ [[0, pd.getD 4 0, pd.getD 2 0]]⟩],
      ⟨some d, some a, false, nm⟩, s.heap.length, s.paused, s.config⟩, ?_, ?_⟩
    · simp only [on_message_it, Bool.false_eq_true, if_false, hp, ht, hj, happ]
    · have hser : ITState.series ⟨s.heap ++ [renormalize
          ⟨(s.heap.getD s.snapRef ⟨3, []⟩).ncols,
            (s.heap.getD s.snapRef ⟨3, []⟩).rows ++
              [[0, pd.getD 4 0, pd.getD 2 0]]⟩],
          ⟨some d, some a, false, nm⟩, s.heap.length, s.paused, s.config⟩ =
          renormalize ⟨(s.heap.getD s.snapRef ⟨3, []⟩).ncols,
            (s.heap.getD s.snapRef ⟨3, []⟩).rows ++
              [[0, pd.getD 4 0, pd.getD 2 0]]⟩ := by
        unfold ITState.series
        exact getD_snoc_length _ _ _
      rw [hser, hn, renormalize_last_col1]
      rfl
  · intro hl
    obtain ⟨x, y, z, hxyz⟩ := List.length_eq_three.mp hl
    subst hxyz
    rfl
  · intro hl
    rw [List.getD_append_right _ _ _ _ (by omega), hl]
    rfl
  · intro hl
    exact List.getD_append _ _ _ _ (by omega)

/-- C10 counterexample: a 3-field raw payload `[V=1, I=0.005, t=100]` with
area 0.1 is handled successfully, and the value stored in the series'
current-density column is 50 — numerically EQUAL to the computed
`j = I*1000/A = 50` (it is the power `p = V*j` with `V = 1`) — refuting
the claim that for any raw length other than 4 the stored value is not the
computed j or the lookup fails. -/
theorem C10_counterexample :
    on_message_it initIT
        (ITMsg.data ⟨some [1, 1/200, 100], some (1/10), false, "t"⟩) =
      Except.ok (⟨[⟨3, []⟩, ⟨3, [[0, 50, 100]]⟩],
        ⟨some [1, 1/200, 100], some (1/10), false, "t"⟩, 1, false, []⟩,
        [Event.publish "data/processed/it_measurement", Event.cachePush])
    ∧ ([1, 1/200, 100] : List ℚ).length ≠ 4
    ∧ ((1 : ℚ)/200 * 1000 / (1/10) = 50) := by
  refine ⟨?_, by decide, by norm_num⟩
  with_unfolding_all rfl

/-- C10 witness: a too-short payload fails with IndexError, and for a
4-field payload the augmented row's index 4 holds exactly the computed j. -/
theorem C10_witness :
    on_message_it initIT (ITMsg.data ⟨some [5], some 1, false, "w"⟩) =
      Except.error PyErr.indexError
    ∧ (([6/10, 5/1000, 100, 0] : List ℚ) ++
        [([6/10, 5/1000, 100, 0] : List ℚ).getD 1 0 * 1000 / (1/10),
         ([6/10, 5/1000, 100, 0] : List ℚ).getD 0 0 *
           (([6/10, 5/1000, 100, 0] : List ℚ).getD 1 0 * 1000 / (1/10))]).getD 4 0 =
      ([6/10, 5/1000, 100, 0] : List ℚ).getD 1 0 * 1000 / (1/10) := by
  constructor
  · exact (C10_fixed_index initIT "w" [5] 1 (by norm_num) rfl).1 (by decide)
  · exact (C10_fixed_index initIT "w" [6/10, 5/1000, 100, 0] (1/10)
      (by norm_num) rfl).2.2.2.2.1 (by decide)

